import Mathlib

/-!
Verification of the elevation-difference classification and statistics
engine of the demcompare repository (stats.py, compare_with_baseline.py).

Modelling conventions.
Raster samples are IEEE floats in the source; we embed them as
`Val := Option Rat` where `none` stands for NaN and `some q` for the
exact value `q`.  Decimal literals of the source are taken at their
exact rational value.  All numpy reductions propagate NaN exactly as
numpy does: `np.mean` / `np.max` / `np.std` of an array containing NaN
return NaN, and the nan-prefixed reductions (`np.nanmedian`,
`np.nanmean`, `np.nanpercentile`) ignore NaN entries; reductions of an
empty selection return NaN.
Square roots are irrational in general, so the record fields that the
source computes as `np.std` and as `rmse = sqrt(mean(x*x))` are stored
squared (`var` and `rmse_sq`); a statement about `std = s` or
`rmse = s` is expressed as `var = s^2` or `rmse_sq = s^2`, and the
strict-interval test `mu - 3*sigma < x < mu + 3*sigma` of the outlier
filter (with `sigma = sqrt var`) is expressed by the equivalent
`(x - mu)^2 < 9 * var`; the lemma `sq_lt_iff_sqrt_interval` below
proves this equivalence against the real square root.
2D grids are embedded row-major as flat lists (`List Val` for rasters,
`List Bool` for masks); numpy elementwise operations become `zipWith`.
-/

namespace DemCompare

/-- A float sample: `none` is NaN, `some q` the exact value. -/
abbrev Val := Option ℚ

/-- A georeferenced raster: flat row-major samples plus nodata sentinel
(`A3DGeoRaster` fields `r` and `nodata` used by stats.py). -/
structure A3DGeoRaster where
  r : List Val
  nodata : ℚ
deriving DecidableEq, Repr

/-- Elementwise boolean product of two masks (numpy `*` on bool arrays). -/
def andMask (a b : List Bool) : List Bool := List.zipWith and a b

/-- Elementwise boolean sum of two masks (numpy `+` on bool arrays). -/
def orMask (a b : List Bool) : List Bool := List.zipWith or a b

/-- Elementwise negation (numpy `~mask`). -/
def notMask (a : List Bool) : List Bool := a.map not

/-- `array[np.where(mask == True)]`: the samples selected by a mask,
in row-major order. -/
def maskedValues (array : List Val) (mask : List Bool) : List Val :=
  (List.zip array mask).filterMap (fun vb => if vb.2 then some vb.1 else none)

/-- `np.mean`: NaN on an empty array, NaN-propagating otherwise. -/
def npMean (l : List Val) : Val :=
  if l.isEmpty || l.any Option.isNone then none
  else some ((l.filterMap id).sum / (l.length : ℚ))

/-- The square of `np.std`: `mean((x - mean(x))^2)`; NaN (none) exactly
when `np.std` is NaN. -/
def npVar (l : List Val) : Val :=
  match npMean l with
  | none => none
  | some m => some (((l.filterMap id).map (fun q => (q - m) ^ 2)).sum / (l.length : ℚ))

/-- `np.max`: NaN-propagating maximum (empty case unused by the source,
which guards on `array.size`). -/
def npMax (l : List Val) : Val :=
  if l.any Option.isNone then none
  else
    match l.filterMap id with
    | [] => none
    | x :: xs => some (xs.foldl max x)

/-- `np.min`: NaN-propagating minimum. -/
def npMin (l : List Val) : Val :=
  if l.any Option.isNone then none
  else
    match l.filterMap id with
    | [] => none
    | x :: xs => some (xs.foldl min x)

/-- `np.sum`: NaN-propagating sum. -/
def npSum (l : List Val) : Val :=
  if l.any Option.isNone then none else some (l.filterMap id).sum

/-- Median of a sorted nonempty list given as head and tail: middle
element for odd length, average of the two middle elements for even. -/
def sortedMedian (x : ℚ) (xs : List ℚ) : ℚ :=
  let s := List.insertionSort (· ≤ ·) (x :: xs)
  let n := s.length
  if n % 2 = 1 then s.getD (n / 2) 0
  else (s.getD (n / 2 - 1) 0 + s.getD (n / 2) 0) / 2

/-- `np.nanmedian`: drops NaN entries, NaN when nothing remains. -/
def npNanmedian (l : List Val) : Val :=
  match l.filterMap id with
  | [] => none
  | x :: xs => some (sortedMedian x xs)

/-- `np.nanmean`: drops NaN entries, NaN when nothing remains. -/
def npNanmean (l : List Val) : Val :=
  match l.filterMap id with
  | [] => none
  | x :: xs => some ((x :: xs).sum / ((x :: xs).length : ℚ))

/-- `np.nanpercentile(l, p)` with the default linear interpolation
between order statistics: drops NaN entries, NaN when nothing remains. -/
def npNanpercentile (p : ℚ) (l : List Val) : Val :=
  match l.filterMap id with
  | [] => none
  | x :: xs =>
    let s := List.insertionSort (· ≤ ·) (x :: xs)
    let n := s.length
    let pos : ℚ := (n - 1 : ℕ) * p / 100
    let i : ℕ := pos.floor.toNat
    let frac : ℚ := pos - (i : ℚ)
    some (s.getD i 0 + frac * (s.getD (min (i + 1) (n - 1)) 0 - s.getD i 0))

/-- `get_nonan_mask(array, nan_value)` of `create_masks`:
`(~np.isnan(x)) * (x != nan_value)` elementwise. -/
def get_nonan_mask (array : List Val) (nanValue : ℚ) : List Bool :=
  array.map (fun v =>
    match v with
    | none => false
    | some q => decide (q ≠ nanValue))

/-- `get_ouliersfree_mask(array, no_nan_mask)` of `create_masks`:
with `mu = np.mean` and `sigma = np.std` of the samples selected by
`no_nan_mask`, the elementwise test `(x > mu - 3*sigma) * (x < mu + 3*sigma)`,
expressed by the equivalent square `(x - mu)^2 < 9 * sigma^2` with
`sigma^2 = npVar` (see `sq_lt_iff_sqrt_interval`); NaN entries and NaN
`mu`/`sigma` compare false, exactly as in numpy. -/
def get_ouliersfree_mask (array : List Val) (noNanMask : List Bool) : List Bool :=
  let selected := maskedValues array noNanMask
  let mu := npMean selected
  let s2 := npVar selected
  array.map (fun v =>
    match v, mu, s2 with
    | some q, some m, some var => decide ((q - m) ^ 2 < 9 * var)
    | _, _, _ => false)

/-- Result of `create_masks`: the ordered mode masks, the mode names,
and the optional outlier-free mask. -/
structure MasksResult where
  masks : List (List Bool)
  modes : List String
  no_outliers : Option (List Bool)
deriving DecidableEq, Repr

/-- `create_masks(alti_map, do_classification, ref_support,
do_cross_classification, ref_support_classified_desc, remove_outliers)`.
The classified descriptor is embedded as its alpha band
(`GetRasterBand(4)`, a grid of byte samples) together with
`desc['nodata'][0]`.  Faithful to the source ordering: the outlier-free
mask is computed from the diff-only no-nan mask, before the
classification refinement is multiplied into `masks[0]`. -/
def create_masks (alti_map : A3DGeoRaster)
    (do_classification : Bool) (ref_support : A3DGeoRaster)
    (do_cross_classification : Bool)
    (classified_alpha : List Val) (classified_nodata0 : ℚ)
    (remove_outliers : Bool) : MasksResult :=
  let mask0 := get_nonan_mask alti_map.r alti_map.nodata
  let no_outliers :=
    if remove_outliers then some (get_ouliersfree_mask alti_map.r mask0) else none
  let mask0c :=
    if do_classification then
      andMask mask0 (get_nonan_mask ref_support.r ref_support.nodata)
    else mask0
  if do_classification && do_cross_classification then
    let coherent_mask := get_nonan_mask classified_alpha classified_nodata0
    { masks := [mask0c, andMask mask0c coherent_mask,
                andMask mask0c (notMask coherent_mask)],
      modes := ["standard", "coherent-classification", "incoherent-classification"],
      no_outliers := no_outliers }
  else
    { masks := [mask0c], modes := ["standard"], no_outliers := no_outliers }

/-- The interval test of `create_sets` for class `idx` at sample `v`:
`sets_rad_range[idx] <= x` for the last class, and
`(sets_rad_range[idx] <= x) * (x < sets_rad_range[idx+1])` otherwise;
comparisons with NaN are false. -/
def setPred (bounds : List ℚ) (idx : ℕ) (v : Val) : Bool :=
  match v with
  | none => false
  | some q =>
    if idx = bounds.length - 1 then decide (bounds.getD idx 0 ≤ q)
    else decide (bounds.getD idx 0 ≤ q) && decide (q < bounds.getD (idx + 1) 0)

/-- `create_sets(img_to_classify, sets_rad_range)` restricted to its
returned boolean class grids (the rendered png is file output): one
grid per boundary, the interval test, then the second source loop
forcing `False` on NaN and nodata samples. -/
def create_sets (img : A3DGeoRaster) (bounds : List ℚ) : List (List Bool) :=
  (List.range bounds.length).map (fun idx =>
    img.r.map (fun v =>
      setPred bounds idx v &&
        match v with
        | none => false
        | some q => decide (q ≠ img.nodata)))

/-- The dictionary built by `stats_computation`; `var` and `rmse_sq`
store the squares of the `std` and `rmse` fields (see file header). -/
structure StatsBase where
  nbpts : ℕ
  max : Val
  min : Val
  mean : Val
  var : Val
  rmse_sq : Val
  median : Val
  nmad : Val
  sum_err : Val
  sum_err_err : Val
deriving DecidableEq, Repr

/-- `stats_computation(array)`: full statistics when the selection is
nonempty, the NaN sentinel in every field but the count otherwise. -/
def stats_computation (array : List Val) : StatsBase :=
  if array.length ≠ 0 then
    { nbpts := array.length
      max := npMax array
      min := npMin array
      mean := npMean array
      var := npVar array
      rmse_sq := npMean (array.map (Option.map (fun q => q * q)))
      median := npNanmedian array
      nmad :=
        match npNanmedian array with
        | none => none
        | some med =>
          match npNanmedian (array.map (Option.map (fun q => |q - med|))) with
          | none => none
          | some dev => some ((1.4826 : ℚ) * dev)
      sum_err := npSum array
      sum_err_err := npSum (array.map (Option.map (fun q => q * q))) }
  else
    { nbpts := 0, max := none, min := none, mean := none, var := none,
      rmse_sq := none, median := none, nmad := none,
      sum_err := none, sum_err_err := none }

/-- `nighty_percentile(array)` of `get_stats`:
`np.nanpercentile(np.abs(array - np.nanmean(array)), 90)`. -/
def nighty_percentile (array : List Val) : Val :=
  match npNanmean array with
  | none => none
  | some m => npNanpercentile 90 (array.map (Option.map (fun q => |q - m|)))

/-- One entry of the `get_stats` output: the `stats_computation`
fields plus the `%` and `90p` keys added by `get_stats` (the string
labels attached alongside are not modelled). -/
structure StatsEntry where
  base : StatsBase
  percent : ℚ
  p90 : Val
deriving DecidableEq, Repr

/-- `get_stats(dz_values, to_keep_mask, no_outliers_mask, sets, ...)`:
the first entry is the all-classes record over the keep+outlier
selection with `90p` over the keep-only selection; then one entry per
class grid, each over `set * to_keep_mask * no_outliers_mask` with
`90p` over `set * to_keep_mask`.  Absent masks default to all-ones. -/
def get_stats (dz_values : List Val)
    (to_keep_mask : Option (List Bool)) (no_outliers_mask : Option (List Bool))
    (sets : Option (List (List Bool))) : List StatsEntry :=
  let nb_total : ℚ := (dz_values.length : ℚ)
  let keep := to_keep_mask.getD (List.replicate dz_values.length true)
  let noout := no_outliers_mask.getD (List.replicate dz_values.length true)
  let base0 := stats_computation (maskedValues dz_values (andMask keep noout))
  let all : StatsEntry :=
    { base := base0
      percent := 100 * (base0.nbpts : ℚ) / nb_total
      p90 := nighty_percentile (maskedValues dz_values keep) }
  let classEntries :=
    match sets with
    | none => []
    | some ss =>
      ss.map (fun s =>
        let b := stats_computation (maskedValues dz_values (andMask (andMask s keep) noout))
        { base := b
          percent := 100 * (b.nbpts : ℚ) / nb_total
          p90 := nighty_percentile (maskedValues dz_values (andMask s keep)) })
  all :: classEntries

/-- A parsed CSV: the header (first line split on commas) and the data
rows, each a class name (first column) followed by the numeric columns
taken at their exact value (the `float(...)` casts of `check_csv`). -/
structure Csv where
  header : List String
  rows : List (String × List ℚ)
deriving DecidableEq, Repr

/-- One difference record accumulated by `check_csv` (the `csv_file`
path field is file metadata and is not modelled). -/
structure CsvDiff where
  class_name : String
  stat_name : String
  baseline_val : ℚ
  test_val : ℚ
deriving DecidableEq, Repr

/-- The body of the `check_csv` row loop after the class-name check:
the per-column list `results` of within-epsilon booleans over the
zipped numeric columns, the enumerated indices where the comparison is
false, and one difference record per such index naming
`csv_ref[0]`.split(',')[index+1]. -/
def checkRow (header : List String) (rr rt : String × List ℚ) (eps : ℚ) : List CsvDiff :=
  let results := (rr.2.zip rt.2).map (fun ab => decide (|ab.1 - ab.2| ≤ eps))
  let indices := (List.range results.length).filter (fun i => results.getD i true = false)
  indices.map (fun index =>
    { class_name := rr.1, stat_name := header.getD (index + 1) "",
      baseline_val := rr.2.getD index 0, test_val := rt.2.getD index 0 })

/-- `check_csv(csv_ref, csv_test, csv_file, epsilon)`: raises when the
header lines differ or when a zipped pair of rows has different class
names, and otherwise returns the accumulated difference records;
`zip` silently drops surplus rows of the longer file. -/
def check_csv (csv_ref csv_test : Csv) (eps : ℚ) : Except String (List CsvDiff) :=
  if csv_ref.header ≠ csv_test.header then
    Except.error "Inconsistent stats between baseline and tested version"
  else
    (csv_ref.rows.zip csv_test.rows).foldlM
      (fun acc rp =>
        if rp.1.1 ≠ rp.2.1 then
          Except.error "Inconsistent class name"
        else
          Except.ok (acc ++ checkRow csv_ref.header rp.1 rp.2 eps))
      []

/-! ### Claim-side definitions

The next definitions transcribe claim sentences (not the source); each
is compared with the corresponding source embedding in the theorems
below. -/

/-- The outlier mask as claim C1 states it: true exactly at pixels
whose value lies strictly inside the 3-sigma interval around the mean
of the diff values selected by the final standard mask, i.e. the mask
returned by `create_masks`, which includes the support-validity
refinement when classification is active.  As everywhere in this file
the strict interval is expressed by its equivalent square. -/
def claimC1_outlier_mask (alti_map : A3DGeoRaster) (do_classification : Bool)
    (ref_support : A3DGeoRaster) (do_cross_classification : Bool)
    (classified_alpha : List Val) (classified_nodata0 : ℚ) : List Bool :=
  let std := (create_masks alti_map do_classification ref_support
      do_cross_classification classified_alpha classified_nodata0 true).masks.headD []
  let selected := maskedValues alti_map.r std
  alti_map.r.map (fun v =>
    match v, npMean selected, npVar selected with
    | some q, some m, some s2 => decide ((q - m) ^ 2 < 9 * s2)
    | _, _, _ => false)

/-- The outlier mask of claim C1 as amended: the mean and standard
deviation are taken over the diff samples that are non-NaN and differ
from the diff nodata only; the support-validity refinement of the
standard mask does not enter this population. -/
def amendedC1_outlier_mask (alti_map : A3DGeoRaster) : List Bool :=
  let valid := get_nonan_mask alti_map.r alti_map.nodata
  let selected := maskedValues alti_map.r valid
  alti_map.r.map (fun v =>
    match v, npMean selected, npVar selected with
    | some q, some m, some s2 => decide ((q - m) ^ 2 < 9 * s2)
    | _, _, _ => false)

/-- Median as the spec words it: middle element of the sorted values,
or the average of the two middle elements for even length. -/
def medQ (l : List ℚ) : ℚ :=
  let s := List.insertionSort (· ≤ ·) l
  if s.length % 2 = 1 then s.getD (s.length / 2) 0
  else (s.getD (s.length / 2 - 1) 0 + s.getD (s.length / 2) 0) / 2

/-- The per-row difference records as claim C8 states them: one record
for exactly each numeric column whose baseline and test values differ
by strictly more than epsilon, referencing the header name at the
differing column index. -/
def claimC8_rowDiffs (header : List String) (rr rt : String × List ℚ) (eps : ℚ) :
    List CsvDiff :=
  (List.range (min rr.2.length rt.2.length)).filterMap (fun i =>
    if eps < |rr.2.getD i 0 - rt.2.getD i 0| then
      some { class_name := rr.1, stat_name := header.getD (i + 1) "",
             baseline_val := rr.2.getD i 0, test_val := rt.2.getD i 0 }
    else none)

/-! ### Helper lemmas -/

/-- Soundness of the squared outlier test used throughout this file:
over the reals, `(q - m)^2 < 9 * s2` is the strict interval
`m - 3*sqrt s2 < q < m + 3*sqrt s2` written by the source with
`sigma = sqrt s2`. -/
theorem sq_lt_iff_sqrt_interval (q m s2 : ℚ) (h : 0 ≤ s2) :
    ((q - m) ^ 2 < 9 * s2) ↔
      ((m : ℝ) - 3 * Real.sqrt (s2 : ℝ) < (q : ℝ) ∧
        (q : ℝ) < (m : ℝ) + 3 * Real.sqrt (s2 : ℝ)) := by
  have hs : (0 : ℝ) ≤ (s2 : ℝ) := by exact_mod_cast h
  have hs2 : Real.sqrt (s2 : ℝ) ^ 2 = (s2 : ℝ) := Real.sq_sqrt hs
  have hsnn : (0 : ℝ) ≤ Real.sqrt (s2 : ℝ) := Real.sqrt_nonneg _
  constructor
  · intro hlt
    have hltR : ((q : ℝ) - (m : ℝ)) ^ 2 < 9 * (s2 : ℝ) := by exact_mod_cast hlt
    have hsq : ((q : ℝ) - (m : ℝ)) ^ 2 < (3 * Real.sqrt (s2 : ℝ)) ^ 2 := by nlinarith
    have habs := abs_lt_of_sq_lt_sq hsq (by positivity)
    rw [abs_lt] at habs
    exact ⟨by linarith [habs.1], by linarith [habs.2]⟩
  · intro hin
    have hsq : ((q : ℝ) - (m : ℝ)) ^ 2 < (3 * Real.sqrt (s2 : ℝ)) ^ 2 :=
      sq_lt_sq' (by linarith [hin.1]) (by linarith [hin.2])
    have hltR : ((q : ℝ) - (m : ℝ)) ^ 2 < 9 * (s2 : ℝ) := by nlinarith
    exact_mod_cast hltR

/-- Filtering then mapping is a `filterMap`. -/
theorem map_filter_eq_filterMap {α β : Type} (f : α → β) (p : α → Bool) :
    ∀ l : List α,
      (l.filter p).map f = l.filterMap (fun a => if p a then some (f a) else none)
  | [] => rfl
  | x :: xs => by
    by_cases hx : p x <;>
      simp [List.filter_cons, hx, map_filter_eq_filterMap f p xs]

/-- `zip` only sees the common prefix of its two arguments. -/
theorem zip_take_min {α β : Type} :
    ∀ (l₁ : List α) (l₂ : List β),
      (l₁.take (min l₁.length l₂.length)).zip (l₂.take (min l₁.length l₂.length)) =
        l₁.zip l₂
  | [], _ => by simp
  | _ :: _, [] => by simp
  | a :: l₁, b :: l₂ => by
    have ih := zip_take_min l₁ l₂
    simp only [List.length_cons, Nat.succ_min_succ, List.take_succ_cons,
      List.zip_cons_cons, ih]

/-- Pointwise boolean identity behind the coherent/incoherent split:
`(m && c) || (m && !c) = m`, lifted to same-length masks. -/
theorem orMask_andMask_not :
    ∀ (m c : List Bool), c.length = m.length →
      orMask (andMask m c) (andMask m (notMask c)) = m
  | [], [], _ => rfl
  | [], _ :: _, h => by simp at h
  | _ :: _, [], h => by simp at h
  | a :: m, b :: c, h => by
    have ih := orMask_andMask_not m c (by simpa using h)
    show (((a && b) || (a && !b)) :: orMask (andMask m c) (andMask m (notMask c))) = a :: m
    rw [ih]
    cases a <;> cases b <;> rfl

/-- The coherent and incoherent refinements of a mask are disjoint at
every pixel. -/
theorem andMask_notMask_disjoint (mb cb : List Bool) (p : ℕ) :
    ¬((andMask mb cb)[p]? = some true ∧ (andMask mb (notMask cb))[p]? = some true) := by
  rintro ⟨h1, h2⟩
  rw [andMask, List.getElem?_zipWith] at h1 h2
  rw [notMask, List.getElem?_map] at h2
  cases hm : mb[p]? with
  | none => rw [hm] at h1; simp at h1
  | some a =>
    cases hc : cb[p]? with
    | none => rw [hm, hc] at h1; simp at h1
    | some b =>
      rw [hm, hc] at h1 h2
      simp only [Option.map_some'] at h2
      cases a <;> cases b <;> simp_all

/-- A zero count forces the sentinel-filled record. -/
theorem stats_computation_of_nbpts_zero (d : List Val)
    (h : (stats_computation d).nbpts = 0) :
    stats_computation d =
      { nbpts := 0, max := none, min := none, mean := none, var := none,
        rmse_sq := none, median := none, nmad := none,
        sum_err := none, sum_err_err := none } := by
  by_cases hd : d.length ≠ 0
  · unfold stats_computation at h
    rw [if_pos hd] at h
    exact absurd h hd
  · unfold stats_computation
    rw [if_neg hd]

/-- On NaN-free data `np.nanmedian` is the textbook median. -/
theorem npNanmedian_map_some (l : List ℚ) (h : l ≠ []) :
    npNanmedian (l.map some) = some (medQ l) := by
  cases l with
  | nil => exact absurd rfl h
  | cons x xs =>
    have hfm : ((x :: xs).map some).filterMap id = x :: xs := by
      rw [List.filterMap_map]
      exact List.filterMap_some _
    unfold npNanmedian
    rw [hfm]
    rfl

/-! ### Claims -/

unseal Rat.mul Rat.inv Rat.add Rat.sub Rat.ofScientific in
/-- C1, counterexample.  With classification active, take a diff
raster `[0, 0, 0, 100]` (nodata `-9999`) and a support raster
`[1, 1, 1, -32768]` (nodata `-32768`).  The final `standard` mask
drops the last pixel, so the mean and deviation the claim prescribes
are those of `[0, 0, 0]` (both `0`), making the claimed outlier mask
all-false; but the code computes the outlier mask from the diff-only
population `[0, 0, 0, 100]` (mean `25`, variance `1875`), which puts
every pixel inside the 3-sigma interval.  The code mask is therefore
all-true and differs from the mask the claim describes. -/
theorem C1_counterexample :
    (create_masks ⟨[some 0, some 0, some 0, some 100], -9999⟩ true
        ⟨[some 1, some 1, some 1, some (-32768)], -32768⟩ false [] 0 true).no_outliers =
      some [true, true, true, true] ∧
    claimC1_outlier_mask ⟨[some 0, some 0, some 0, some 100], -9999⟩ true
        ⟨[some 1, some 1, some 1, some (-32768)], -32768⟩ false [] 0 =
      [false, false, false, false] ∧
    (create_masks ⟨[some 0, some 0, some 0, some 100], -9999⟩ true
        ⟨[some 1, some 1, some 1, some (-32768)], -32768⟩ false [] 0 true).no_outliers ≠
      some (claimC1_outlier_mask ⟨[some 0, some 0, some 0, some 100], -9999⟩ true
        ⟨[some 1, some 1, some 1, some (-32768)], -32768⟩ false [] 0) := by
  exact ⟨by decide, by decide, by decide⟩

/-- C1 as amended: the outlier mask returned by `create_masks` is true
exactly at pixels whose value lies strictly inside the 3-sigma
interval around the mean of the diff values that are non-NaN and
differ from the diff nodata (the support-validity refinement, applied
to the `standard` mask only afterwards, does not enter this
population); and computing the outlier mask leaves the returned mode
masks, the `standard` mask among them, unchanged. -/
theorem C1_outlier_population (alti_map : A3DGeoRaster) (do_classification : Bool)
    (ref_support : A3DGeoRaster) (do_cross_classification : Bool)
    (classified_alpha : List Val) (classified_nodata0 : ℚ) :
    (create_masks alti_map do_classification ref_support do_cross_classification
        classified_alpha classified_nodata0 true).no_outliers =
      some (amendedC1_outlier_mask alti_map) ∧
    (create_masks alti_map do_classification ref_support do_cross_classification
        classified_alpha classified_nodata0 true).masks =
      (create_masks alti_map do_classification ref_support do_cross_classification
        classified_alpha classified_nodata0 false).masks ∧
    (create_masks alti_map do_classification ref_support do_cross_classification
        classified_alpha classified_nodata0 true).modes =
      (create_masks alti_map do_classification ref_support do_cross_classification
        classified_alpha classified_nodata0 false).modes := by
  cases do_classification <;> cases do_cross_classification <;> exact ⟨rfl, rfl, rfl⟩

unseal Rat.mul Rat.inv Rat.add Rat.sub Rat.ofScientific in
/-- C4.  The `standard` mask is true exactly at pixels whose diff
sample is non-NaN and differs from the diff nodata, and, when
classification is active, whose support sample is non-NaN and differs
from the support nodata.  On the 4x4 scenario (all zeros, nodata
`-9999`, one pixel equal to `-9999`, no classification) the mask holds
on 15 pixels and the first record of `get_stats` under that mask has
count 15, mean 0, variance 0 (hence std 0), squared rmse 0 (hence
rmse 0), median 0, nmad 0 and percent 93.75. -/
theorem C4_standard_mask :
    (∀ (alti_map : A3DGeoRaster) (dc : Bool) (ref_support : A3DGeoRaster)
        (dx : Bool) (alpha : List Val) (a0 : ℚ) (ro : Bool) (p : ℕ),
      ((create_masks alti_map dc ref_support dx alpha a0 ro).masks.headD [])[p]? =
          some true ↔
        ∃ q : ℚ, alti_map.r[p]? = some (some q) ∧ q ≠ alti_map.nodata ∧
          (dc = true →
            ∃ s : ℚ, ref_support.r[p]? = some (some s) ∧ s ≠ ref_support.nodata)) ∧
    ((create_masks ⟨List.replicate 15 (some 0) ++ [some (-9999)], -9999⟩ false ⟨[], 0⟩
        false [] 0 true).masks.headD []).count true = 15 ∧
    (get_stats (List.replicate 15 (some 0) ++ [some (-9999)])
        (some ((create_masks ⟨List.replicate 15 (some 0) ++ [some (-9999)], -9999⟩ false
          ⟨[], 0⟩ false [] 0 true).masks.headD [])) none none).headD
      ⟨stats_computation [], 0, none⟩ =
      ⟨⟨15, some 0, some 0, some 0, some 0, some 0, some 0, some 0, some 0, some 0⟩,
        93.75, some 0⟩ := by
  refine ⟨?_, by decide, by decide⟩
  intro alti_map dc ref_support dx alpha a0 ro p
  cases dc with
  | false =>
    have hmask : (create_masks alti_map false ref_support dx alpha a0 ro).masks.headD [] =
        get_nonan_mask alti_map.r alti_map.nodata := by
      cases dx <;> cases ro <;> rfl
    rw [hmask, get_nonan_mask, List.getElem?_map]
    cases hv : alti_map.r[p]? with
    | none => simp
    | some v =>
      cases v with
      | none => simp
      | some q => simp [decide_eq_true_iff]
  | true =>
    have hmask : (create_masks alti_map true ref_support dx alpha a0 ro).masks.headD [] =
        andMask (get_nonan_mask alti_map.r alti_map.nodata)
          (get_nonan_mask ref_support.r ref_support.nodata) := by
      cases dx <;> cases ro <;> rfl
    rw [hmask, andMask, List.getElem?_zipWith, get_nonan_mask, get_nonan_mask,
      List.getElem?_map, List.getElem?_map]
    cases hv : alti_map.r[p]? with
    | none => cases hs : ref_support.r[p]? <;> simp
    | some v =>
      cases hs : ref_support.r[p]? with
      | none =>
        cases v with
        | none => simp
        | some q => simp
      | some w =>
        cases v with
        | none => cases w <;> simp
        | some q =>
          cases w with
          | none => simp
          | some s => simp [decide_eq_true_iff]

unseal Rat.mul Rat.inv Rat.add Rat.sub Rat.ofScientific in
/-- C5.  The nmad field of `stats_computation` on a nonempty NaN-free
array is exactly `1.4826` times the median of the absolute deviations
from the median; on `[1, 2, 3, 4, 100]` the median is `3` and the nmad
is exactly `1.4826`. -/
theorem C5_nmad_formula :
    (∀ l : List ℚ, l ≠ [] →
      (stats_computation (l.map some)).nmad =
        some ((1.4826 : ℚ) * medQ (l.map (fun x => |x - medQ l|)))) ∧
    medQ [1, 2, 3, 4, 100] = 3 ∧
    (stats_computation (([1, 2, 3, 4, 100] : List ℚ).map some)).nmad =
      some (1.4826 : ℚ) := by
  refine ⟨?_, by decide, by decide⟩
  intro l hl
  have hlen : (l.map some).length ≠ 0 := by simpa using hl
  have hml : l.map (fun x => |x - medQ l|) ≠ [] := by simpa using hl
  have hmap : (l.map some).map (Option.map (fun q => |q - medQ l|)) =
      (l.map (fun x => |x - medQ l|)).map some := by
    simp [List.map_map, Function.comp]
  unfold stats_computation
  rw [if_pos hlen]
  dsimp only
  rw [npNanmedian_map_some l hl]
  dsimp only
  rw [hmap, npNanmedian_map_some _ hml]

/-- C3.  A record of `get_stats` whose selected population is empty
(count zero) carries percent `0` and the NaN sentinel in every other
numeric field; its computation is total. -/
theorem C3_empty_population (dz : List Val) (keep noout : Option (List Bool))
    (sets : Option (List (List Bool))) (idx : ℕ) (rec : StatsEntry)
    (htotal : 0 < dz.length)
    (hrec : (get_stats dz keep noout sets)[idx]? = some rec)
    (hcount : rec.base.nbpts = 0) :
    rec.percent = 0 ∧ rec.base.max = none ∧ rec.base.min = none ∧
    rec.base.mean = none ∧ rec.base.var = none ∧ rec.base.rmse_sq = none ∧
    rec.base.median = none ∧ rec.base.nmad = none ∧ rec.base.sum_err = none ∧
    rec.base.sum_err_err = none := by
  have hshape : ∃ d : List Val, rec.base = stats_computation d ∧
      rec.percent = 100 * ((stats_computation d).nbpts : ℚ) / (dz.length : ℚ) := by
    simp only [get_stats] at hrec
    cases idx with
    | zero =>
      rw [List.getElem?_cons_zero] at hrec
      obtain rfl := (Option.some.inj hrec).symm
      exact ⟨_, rfl, rfl⟩
    | succ k =>
      rw [List.getElem?_cons_succ] at hrec
      cases sets with
      | none => simp at hrec
      | some ss =>
        rw [List.getElem?_map, Option.map_eq_some'] at hrec
        obtain ⟨s, _, hfs⟩ := hrec
        subst hfs
        exact ⟨_, rfl, rfl⟩
  obtain ⟨d, hbase, hpct⟩ := hshape
  rw [hbase] at hcount
  have hempty := stats_computation_of_nbpts_zero d hcount
  rw [hcount] at hpct
  refine ⟨?_, ?_, ?_, ?_, ?_, ?_, ?_, ?_, ?_, ?_⟩ <;>
    simp [hbase, hempty, hpct]

unseal Rat.mul Rat.inv Rat.add Rat.sub Rat.ofScientific in
/-- Witness for C3 at a concrete input: a one-pixel raster whose single
pixel is masked out. -/
theorem C3_empty_population_witness :
    0 < ([some (5 : ℚ)] : List Val).length ∧
    (get_stats [some (5 : ℚ)] (some [false]) none none)[0]? =
      some ⟨stats_computation [], 0, none⟩ ∧
    (⟨stats_computation [], 0, none⟩ : StatsEntry).base.nbpts = 0 ∧
    ((⟨stats_computation [], 0, none⟩ : StatsEntry).percent = 0 ∧
      (⟨stats_computation [], 0, none⟩ : StatsEntry).base.max = none ∧
      (⟨stats_computation [], 0, none⟩ : StatsEntry).base.min = none ∧
      (⟨stats_computation [], 0, none⟩ : StatsEntry).base.mean = none ∧
      (⟨stats_computation [], 0, none⟩ : StatsEntry).base.var = none ∧
      (⟨stats_computation [], 0, none⟩ : StatsEntry).base.rmse_sq = none ∧
      (⟨stats_computation [], 0, none⟩ : StatsEntry).base.median = none ∧
      (⟨stats_computation [], 0, none⟩ : StatsEntry).base.nmad = none ∧
      (⟨stats_computation [], 0, none⟩ : StatsEntry).base.sum_err = none ∧
      (⟨stats_computation [], 0, none⟩ : StatsEntry).base.sum_err_err = none) :=
  ⟨by decide, by decide, by decide,
    C3_empty_population [some (5 : ℚ)] (some [false]) none none 0
      ⟨stats_computation [], 0, none⟩ (by decide) (by decide) (by decide)⟩

unseal Rat.mul Rat.inv Rat.add Rat.sub Rat.ofScientific in
/-- Witness for C5 at the concrete array of the claim. -/
theorem C5_nmad_formula_witness :
    ([1, 2, 3, 4, 100] : List ℚ) ≠ [] ∧
    (stats_computation (([1, 2, 3, 4, 100] : List ℚ).map some)).nmad =
      some ((1.4826 : ℚ) *
        medQ (([1, 2, 3, 4, 100] : List ℚ).map
          (fun x => |x - medQ [1, 2, 3, 4, 100]|))) :=
  ⟨by decide, C5_nmad_formula.1 [1, 2, 3, 4, 100] (by decide)⟩

unseal Rat.mul Rat.inv Rat.add Rat.sub Rat.ofScientific in
/-- C6.  Class membership of `create_sets` is lower-inclusive
half-open, the last interval unbounded above: a grid pixel is in class
`i` exactly when its support sample is a non-NaN value `q` different
from the support nodata with `bounds[i] <= q`, and moreover `q <
bounds[i+1]` unless `i` is the last class.  For boundaries
`[0, 10, 25]` the value `10` falls in the second class only and `25`
in the third only. -/
theorem C6_class_membership :
    (∀ (img : A3DGeoRaster) (bounds : List ℚ) (i p : ℕ), i < bounds.length →
      (((create_sets img bounds).getD i [])[p]? = some true ↔
        ∃ q : ℚ, img.r[p]? = some (some q) ∧ q ≠ img.nodata ∧
          bounds.getD i 0 ≤ q ∧
          (i = bounds.length - 1 ∨ q < bounds.getD (i + 1) 0))) ∧
    create_sets ⟨[some 10], -32768⟩ [0, 10, 25] = [[false], [true], [false]] ∧
    create_sets ⟨[some 25], -32768⟩ [0, 10, 25] = [[false], [false], [true]] := by
  refine ⟨?_, by decide, by decide⟩
  intro img bounds i p hi
  unfold create_sets
  rw [List.getD_eq_getElem?_getD, List.getElem?_map, List.getElem?_range hi]
  simp only [Option.map_some', Option.getD_some]
  rw [List.getElem?_map]
  cases hv : img.r[p]? with
  | none => simp
  | some v =>
    cases v with
    | none => simp [setPred]
    | some q =>
      by_cases hlast : i = bounds.length - 1
      · simp [setPred, hlast, decide_eq_true_iff, and_comm]
      · simp only [setPred, if_neg hlast, Option.map_some', Option.some.injEq,
          Bool.and_eq_true, decide_eq_true_iff]
        constructor
        · rintro ⟨⟨h1, h2⟩, h3⟩
          exact ⟨q, rfl, h3, h1, Or.inr h2⟩
        · rintro ⟨q', hq', h3, h1, h2⟩
          subst hq'
          rcases h2 with h2 | h2
          · exact absurd h2 hlast
          · exact ⟨⟨h1, h2⟩, h3⟩

unseal Rat.mul Rat.inv Rat.add Rat.sub Rat.ofScientific in
/-- Witness for C6: class index 1 at the single pixel of value 10. -/
theorem C6_class_membership_witness :
    1 < ([0, 10, 25] : List ℚ).length ∧
    (((create_sets ⟨[some 10], -32768⟩ [0, 10, 25]).getD 1 [])[0]? = some true ↔
      ∃ q : ℚ, (⟨[some 10], -32768⟩ : A3DGeoRaster).r[0]? = some (some q) ∧
        q ≠ (⟨[some 10], -32768⟩ : A3DGeoRaster).nodata ∧
        ([0, 10, 25] : List ℚ).getD 1 0 ≤ q ∧
        (1 = ([0, 10, 25] : List ℚ).length - 1 ∨
          q < ([0, 10, 25] : List ℚ).getD (1 + 1) 0)) :=
  ⟨by decide, C6_class_membership.1 ⟨[some 10], -32768⟩ [0, 10, 25] 1 0 (by decide)⟩

/-- C7.  When classification and cross-classification are both active,
the coherent-classification and incoherent-classification masks of
`create_masks` are disjoint at every pixel and their pointwise union
is the standard mask. -/
theorem C7_coherence_partition (alti_map ref_support : A3DGeoRaster)
    (classified_alpha : List Val) (classified_nodata0 : ℚ) (remove_outliers : Bool)
    (hsup : ref_support.r.length = alti_map.r.length)
    (halpha : classified_alpha.length = alti_map.r.length) :
    (∀ p : ℕ,
      ¬(((create_masks alti_map true ref_support true classified_alpha
            classified_nodata0 remove_outliers).masks.getD 1 [])[p]? = some true ∧
        ((create_masks alti_map true ref_support true classified_alpha
            classified_nodata0 remove_outliers).masks.getD 2 [])[p]? = some true)) ∧
    orMask
      ((create_masks alti_map true ref_support true classified_alpha
          classified_nodata0 remove_outliers).masks.getD 1 [])
      ((create_masks alti_map true ref_support true classified_alpha
          classified_nodata0 remove_outliers).masks.getD 2 []) =
      (create_masks alti_map true ref_support true classified_alpha
          classified_nodata0 remove_outliers).masks.getD 0 [] := by
  have h0 : (create_masks alti_map true ref_support true classified_alpha
      classified_nodata0 remove_outliers).masks.getD 0 [] =
      andMask (get_nonan_mask alti_map.r alti_map.nodata)
        (get_nonan_mask ref_support.r ref_support.nodata) := by
    cases remove_outliers <;> rfl
  have h1 : (create_masks alti_map true ref_support true classified_alpha
      classified_nodata0 remove_outliers).masks.getD 1 [] =
      andMask
        (andMask (get_nonan_mask alti_map.r alti_map.nodata)
          (get_nonan_mask ref_support.r ref_support.nodata))
        (get_nonan_mask classified_alpha classified_nodata0) := by
    cases remove_outliers <;> rfl
  have h2 : (create_masks alti_map true ref_support true classified_alpha
      classified_nodata0 remove_outliers).masks.getD 2 [] =
      andMask
        (andMask (get_nonan_mask alti_map.r alti_map.nodata)
          (get_nonan_mask ref_support.r ref_support.nodata))
        (notMask (get_nonan_mask classified_alpha classified_nodata0)) := by
    cases remove_outliers <;> rfl
  rw [h0, h1, h2]
  refine ⟨fun p => andMask_notMask_disjoint _ _ p, ?_⟩
  apply orMask_andMask_not
  have hlen1 : (get_nonan_mask alti_map.r alti_map.nodata).length = alti_map.r.length := by
    simp [get_nonan_mask]
  have hlen2 : (get_nonan_mask ref_support.r ref_support.nodata).length =
      alti_map.r.length := by simp [get_nonan_mask, hsup]
  have hlen3 : (get_nonan_mask classified_alpha classified_nodata0).length =
      alti_map.r.length := by simp [get_nonan_mask, halpha]
  simp [andMask, hlen1, hlen2, hlen3]

/-- Witness for C7 on a concrete three-pixel configuration with an
incoherent middle pixel. -/
theorem C7_coherence_partition_witness :
    ((⟨[some 1, some 2, some 3], -9999⟩ : A3DGeoRaster).r.length =
        (⟨[some 4, some 5, some 6], -9999⟩ : A3DGeoRaster).r.length ∧
      ([some 255, some 0, some 255] : List Val).length =
        (⟨[some 4, some 5, some 6], -9999⟩ : A3DGeoRaster).r.length) ∧
    ((∀ p : ℕ,
      ¬(((create_masks ⟨[some 4, some 5, some 6], -9999⟩ true
            ⟨[some 1, some 2, some 3], -9999⟩ true [some 255, some 0, some 255]
            0 true).masks.getD 1 [])[p]? = some true ∧
        ((create_masks ⟨[some 4, some 5, some 6], -9999⟩ true
            ⟨[some 1, some 2, some 3], -9999⟩ true [some 255, some 0, some 255]
            0 true).masks.getD 2 [])[p]? = some true)) ∧
    orMask
      ((create_masks ⟨[some 4, some 5, some 6], -9999⟩ true
          ⟨[some 1, some 2, some 3], -9999⟩ true [some 255, some 0, some 255]
          0 true).masks.getD 1 [])
      ((create_masks ⟨[some 4, some 5, some 6], -9999⟩ true
          ⟨[some 1, some 2, some 3], -9999⟩ true [some 255, some 0, some 255]
          0 true).masks.getD 2 []) =
      (create_masks ⟨[some 4, some 5, some 6], -9999⟩ true
          ⟨[some 1, some 2, some 3], -9999⟩ true [some 255, some 0, some 255]
          0 true).masks.getD 0 []) :=
  ⟨⟨by decide, by decide⟩,
    C7_coherence_partition ⟨[some 4, some 5, some 6], -9999⟩
      ⟨[some 1, some 2, some 3], -9999⟩ [some 255, some 0, some 255] 0 true
      (by decide) (by decide)⟩

/-- Binding a successful `Except` computation just continues. -/
theorem except_ok_bind {ε α β : Type} (a : α) (f : α → Except ε β) :
    (Except.ok a >>= f) = f a := rfl

/-- The row loop of `check_csv` over rows with matching class names
never raises and accumulates the per-row records in order. -/
theorem check_csv_foldlM (header : List String) (eps : ℚ) :
    ∀ (l : List ((String × List ℚ) × (String × List ℚ))) (acc : List CsvDiff),
      (∀ rp ∈ l, rp.1.1 = rp.2.1) →
      List.foldlM
        (fun acc rp =>
          if rp.1.1 ≠ rp.2.1 then
            (Except.error "Inconsistent class name" : Except String (List CsvDiff))
          else Except.ok (acc ++ checkRow header rp.1 rp.2 eps))
        acc l =
      Except.ok (acc ++ l.flatMap (fun rp => checkRow header rp.1 rp.2 eps)) := by
  intro l
  induction l with
  | nil =>
    intro acc _
    simp only [List.foldlM_nil, List.flatMap_nil, List.append_nil]
    rfl
  | cons rp l ih =>
    intro acc h
    have hcls : rp.1.1 = rp.2.1 := h rp (List.mem_cons_self rp l)
    rw [List.foldlM_cons, if_neg (not_not_intro hcls), except_ok_bind,
      ih _ (fun x hx => h x (List.mem_cons_of_mem rp hx))]
    simp [List.flatMap_cons]

/-- The row records built by `check_csv` are exactly the ones claim C8
describes. -/
theorem checkRow_eq_claim (header : List String) (rr rt : String × List ℚ) (eps : ℚ) :
    checkRow header rr rt eps = claimC8_rowDiffs header rr rt eps := by
  simp only [checkRow, claimC8_rowDiffs]
  have hlen : ((rr.2.zip rt.2).map (fun ab => decide (|ab.1 - ab.2| ≤ eps))).length =
      min rr.2.length rt.2.length := by simp
  rw [hlen, map_filter_eq_filterMap]
  apply List.filterMap_congr
  intro i hi
  have hmin : i < min rr.2.length rt.2.length := List.mem_range.mp hi
  have hi1 : i < rr.2.length := lt_of_lt_of_le hmin (min_le_left _ _)
  have hi2 : i < rt.2.length := lt_of_lt_of_le hmin (min_le_right _ _)
  have hz : i < (rr.2.zip rt.2).length := by
    simp only [List.length_zip]
    exact hmin
  have hres : ((rr.2.zip rt.2).map (fun ab => decide (|ab.1 - ab.2| ≤ eps))).getD i true =
      decide (|rr.2.getD i 0 - rt.2.getD i 0| ≤ eps) := by
    rw [List.getD_eq_getElem _ _ (by simpa using hz), List.getElem_map, List.getElem_zip,
      List.getD_eq_getElem _ _ hi1, List.getD_eq_getElem _ _ hi2]
  rw [hres]
  by_cases hle : |rr.2.getD i 0 - rt.2.getD i 0| ≤ eps
  · rw [decide_eq_true hle, if_neg (not_lt.mpr hle)]
    simp
  · rw [decide_eq_false hle, if_pos (not_le.mp hle)]
    simp

unseal Rat.mul Rat.inv Rat.add Rat.sub Rat.ofScientific in
/-- C8.  For CSVs with equal headers and pairwise equal class names,
`check_csv` returns exactly one difference record per numeric column
differing by strictly more than epsilon, referencing the header name
at that column; the row `[A, 1.0, 2.0]` against
`[A, 1.0, 2.0000000000000002]` gives no record at epsilon `1e-15` and
exactly one record (on the third header column) at epsilon `0`. -/
theorem C8_epsilon_tolerance :
    (∀ (csv_ref csv_test : Csv) (eps : ℚ),
      csv_ref.header = csv_test.header →
      (∀ rp ∈ csv_ref.rows.zip csv_test.rows, rp.1.1 = rp.2.1) →
      check_csv csv_ref csv_test eps =
        Except.ok ((csv_ref.rows.zip csv_test.rows).flatMap
          (fun rp => claimC8_rowDiffs csv_ref.header rp.1 rp.2 eps))) ∧
    check_csv ⟨["Set Name", "s1", "s2"], [("A", [1, 2])]⟩
        ⟨["Set Name", "s1", "s2"], [("A", [1, 2.0000000000000002])]⟩ 1e-15 =
      Except.ok [] ∧
    check_csv ⟨["Set Name", "s1", "s2"], [("A", [1, 2])]⟩
        ⟨["Set Name", "s1", "s2"], [("A", [1, 2.0000000000000002])]⟩ 0 =
      Except.ok [⟨"A", "s2", 2, 2.0000000000000002⟩] := by
  refine ⟨?_, by rfl, by rfl⟩
  intro csv_ref csv_test eps hh hcls
  unfold check_csv
  rw [if_neg (not_not_intro hh), check_csv_foldlM csv_ref.header eps _ [] hcls,
    List.nil_append]
  simp only [checkRow_eq_claim]

unseal Rat.mul Rat.inv Rat.add Rat.sub Rat.ofScientific in
/-- Witness for C8 at the concrete scenario rows with epsilon zero. -/
theorem C8_epsilon_tolerance_witness :
    (⟨["Set Name", "s1", "s2"], [("A", [1, 2])]⟩ : Csv).header =
        (⟨["Set Name", "s1", "s2"], [("A", [1, 2.0000000000000002])]⟩ : Csv).header ∧
    (∀ rp ∈ (⟨["Set Name", "s1", "s2"], [("A", [1, 2])]⟩ : Csv).rows.zip
        (⟨["Set Name", "s1", "s2"], [("A", [1, 2.0000000000000002])]⟩ : Csv).rows,
      rp.1.1 = rp.2.1) ∧
    check_csv ⟨["Set Name", "s1", "s2"], [("A", [1, 2])]⟩
        ⟨["Set Name", "s1", "s2"], [("A", [1, 2.0000000000000002])]⟩ 0 =
      Except.ok
        (((⟨["Set Name", "s1", "s2"], [("A", [1, 2])]⟩ : Csv).rows.zip
            (⟨["Set Name", "s1", "s2"], [("A", [1, 2.0000000000000002])]⟩ : Csv).rows).flatMap
          (fun rp =>
            claimC8_rowDiffs (⟨["Set Name", "s1", "s2"], [("A", [1, 2])]⟩ : Csv).header
              rp.1 rp.2 0)) :=
  ⟨by decide, by decide,
    C8_epsilon_tolerance.1 ⟨["Set Name", "s1", "s2"], [("A", [1, 2])]⟩
      ⟨["Set Name", "s1", "s2"], [("A", [1, 2.0000000000000002])]⟩ 0
      (by decide) (by decide)⟩

/-- C10.  `check_csv` compares only the common prefix of the data
rows: its outcome is unchanged when both files are truncated to their
first `min(n, m)` rows, and when the headers agree and all common rows
agree in class name and lie within epsilon columnwise, it succeeds with
no difference, regardless of surplus rows in either file. -/
theorem C10_surplus_rows :
    (∀ (csv_ref csv_test : Csv) (eps : ℚ),
      check_csv csv_ref csv_test eps =
        check_csv
          ⟨csv_ref.header,
            csv_ref.rows.take (min csv_ref.rows.length csv_test.rows.length)⟩
          ⟨csv_test.header,
            csv_test.rows.take (min csv_ref.rows.length csv_test.rows.length)⟩ eps) ∧
    (∀ (csv_ref csv_test : Csv) (eps : ℚ),
      csv_ref.header = csv_test.header →
      (∀ rp ∈ csv_ref.rows.zip csv_test.rows, rp.1.1 = rp.2.1 ∧
        ∀ ab ∈ rp.1.2.zip rp.2.2, |ab.1 - ab.2| ≤ eps) →
      check_csv csv_ref csv_test eps = Except.ok []) := by
  constructor
  · intro csv_ref csv_test eps
    unfold check_csv
    simp only [zip_take_min]
  · intro csv_ref csv_test eps hh hrows
    unfold check_csv
    rw [if_neg (not_not_intro hh),
      check_csv_foldlM csv_ref.header eps _ [] (fun rp h => (hrows rp h).1),
      List.nil_append]
    congr 1
    rw [List.flatMap_eq_nil_iff]
    intro rp hrp
    rw [checkRow_eq_claim, claimC8_rowDiffs, List.filterMap_eq_nil_iff]
    intro i hi
    have hmin : i < min rp.1.2.length rp.2.2.length := List.mem_range.mp hi
    have hi1 : i < rp.1.2.length := lt_of_lt_of_le hmin (min_le_left _ _)
    have hi2 : i < rp.2.2.length := lt_of_lt_of_le hmin (min_le_right _ _)
    have hz : i < (rp.1.2.zip rp.2.2).length := by
      simp only [List.length_zip]
      exact hmin
    have hmem : (rp.1.2.getD i 0, rp.2.2.getD i 0) ∈ rp.1.2.zip rp.2.2 := by
      have hgm := List.getElem_mem hz
      rw [List.getElem_zip] at hgm
      rw [List.getD_eq_getElem _ _ hi1, List.getD_eq_getElem _ _ hi2]
      exact hgm
    have hle := (hrows rp hrp).2 _ hmem
    rw [if_neg (not_lt.mpr hle)]

unseal Rat.mul Rat.inv Rat.add Rat.sub Rat.ofScientific in
/-- Witness for C10: a test CSV missing the trailing class row passes
against a two-row baseline. -/
theorem C10_surplus_rows_witness :
    (⟨["Set Name", "s1"], [("A", [1]), ("B", [2])]⟩ : Csv).header =
        (⟨["Set Name", "s1"], [("A", [1])]⟩ : Csv).header ∧
    (∀ rp ∈ (⟨["Set Name", "s1"], [("A", [1]), ("B", [2])]⟩ : Csv).rows.zip
        (⟨["Set Name", "s1"], [("A", [1])]⟩ : Csv).rows,
      rp.1.1 = rp.2.1 ∧ ∀ ab ∈ rp.1.2.zip rp.2.2, |ab.1 - ab.2| ≤ (0 : ℚ)) ∧
    check_csv ⟨["Set Name", "s1"], [("A", [1]), ("B", [2])]⟩
        ⟨["Set Name", "s1"], [("A", [1])]⟩ 0 = Except.ok [] :=
  ⟨by decide, by decide,
    C10_surplus_rows.2 ⟨["Set Name", "s1"], [("A", [1]), ("B", [2])]⟩
      ⟨["Set Name", "s1"], [("A", [1])]⟩ 0 (by decide) (by decide)⟩

/-- One class grid of `create_sets`, extracted by index. -/
theorem create_sets_getD (img : A3DGeoRaster) (bounds : List ℚ) (i : ℕ)
    (hi : i < bounds.length) :
    (create_sets img bounds).getD i [] =
      img.r.map (fun v =>
        setPred bounds i v &&
          match v with
          | none => false
          | some q => decide (q ≠ img.nodata)) := by
  unfold create_sets
  rw [List.getD_eq_getElem?_getD, List.getElem?_map, List.getElem?_range hi]
  rfl

/-- Pixel membership in a class grid of `create_sets`. -/
theorem create_sets_mem_iff (img : A3DGeoRaster) (bounds : List ℚ) (i p : ℕ) :
    ((create_sets img bounds).getD i [])[p]? = some true ↔
      (i < bounds.length ∧ ∃ q : ℚ, img.r[p]? = some (some q) ∧
        q ≠ img.nodata ∧ setPred bounds i (some q) = true) := by
  by_cases hi : i < bounds.length
  · rw [create_sets_getD img bounds i hi, List.getElem?_map]
    cases hv : img.r[p]? with
    | none => simp [hi]
    | some v =>
      cases v with
      | none => simp [hi, setPred]
      | some q => simp [hi, decide_eq_true_iff, and_comm]
  · have hlen : (create_sets img bounds).length ≤ i := by
      have h1 : (create_sets img bounds).length = bounds.length := by simp [create_sets]
      omega
    rw [List.getD_eq_default _ _ hlen]
    simp [hi]

/-- Shifting one boundary off the front shifts class membership by
one index. -/
theorem setPred_cons_succ (b : ℚ) (bounds : List ℚ) (i : ℕ) (hi : i < bounds.length)
    (v : Val) : setPred (b :: bounds) (i + 1) v = setPred bounds i v := by
  cases v with
  | none => rfl
  | some q =>
    simp only [setPred, List.length_cons, Nat.add_sub_cancel, List.getD_cons_succ]
    by_cases hlast : i = bounds.length - 1
    · rw [if_pos (by omega), if_pos hlast]
    · rw [if_neg (by omega), if_neg hlast]

/-- Membership in class `i` forces the lower boundary. -/
theorem setPred_true_le (bounds : List ℚ) (i : ℕ) (q : ℚ)
    (h : setPred bounds i (some q) = true) : bounds.getD i 0 ≤ q := by
  simp only [setPred] at h
  by_cases hlast : i = bounds.length - 1
  · rw [if_pos hlast] at h
    exact of_decide_eq_true h
  · rw [if_neg hlast, Bool.and_eq_true] at h
    exact of_decide_eq_true h.1

/-- Membership in a non-last class forces the upper boundary. -/
theorem setPred_true_lt (bounds : List ℚ) (i : ℕ) (q : ℚ)
    (hlast : i ≠ bounds.length - 1)
    (h : setPred bounds i (some q) = true) : q < bounds.getD (i + 1) 0 := by
  simp only [setPred] at h
  rw [if_neg hlast, Bool.and_eq_true] at h
  exact of_decide_eq_true h.2

/-- With strictly increasing boundaries, no value is in two classes. -/
theorem setPred_disjoint (bounds : List ℚ) (hchain : List.Chain' (· < ·) bounds)
    (i j : ℕ) (hij : i < j) (hj : j < bounds.length) (q : ℚ)
    (hi' : setPred bounds i (some q) = true)
    (hj' : setPred bounds j (some q) = true) : False := by
  have hi : i < bounds.length := lt_trans hij hj
  have hilast : i ≠ bounds.length - 1 := by omega
  have h1 : q < bounds.getD (i + 1) 0 := setPred_true_lt bounds i q hilast hi'
  have h2 : bounds.getD j 0 ≤ q := setPred_true_le bounds j q hj'
  have hpw : List.Pairwise (· < ·) bounds := List.chain'_iff_pairwise.mp hchain
  have hsucc : i + 1 ≤ j := Nat.succ_le_of_lt hij
  rcases eq_or_lt_of_le hsucc with heq | hlt
  · rw [heq] at h1
    exact absurd h1 (not_lt.mpr h2)
  · have hi1 : i + 1 < bounds.length := lt_trans hlt hj
    have hmono := List.pairwise_iff_getElem.mp hpw (i + 1) j hi1 hj hlt
    rw [← List.getD_eq_getElem bounds 0 hi1, ← List.getD_eq_getElem bounds 0 hj] at hmono
    linarith

/-- With strictly increasing boundaries, every value at or above the
first boundary is in some class. -/
theorem setPred_exists :
    ∀ (bounds : List ℚ), List.Chain' (· < ·) bounds → ∀ q : ℚ, bounds ≠ [] →
      bounds.headD 0 ≤ q →
      ∃ i, i < bounds.length ∧ setPred bounds i (some q) = true
  | [], _, _, hne, _ => absurd rfl hne
  | [b], _, q, _, hq => by
    refine ⟨0, by simp, ?_⟩
    simp only [setPred, List.length_cons, List.length_nil]
    rw [if_pos trivial]
    exact decide_eq_true (by simpa using hq)
  | b0 :: b1 :: rest, hchain, q, _, hq => by
    by_cases hlt : q < b1
    · refine ⟨0, by simp, ?_⟩
      have hne0 : (0 : ℕ) ≠ (b0 :: b1 :: rest).length - 1 := by simp
      simp only [setPred]
      rw [if_neg hne0]
      simp only [List.getD_cons_zero, List.getD_cons_succ]
      rw [decide_eq_true (by simpa using hq), decide_eq_true hlt]
      rfl
    · have hble : b1 ≤ q := not_lt.mp hlt
      obtain ⟨i, hi, hpred⟩ :=
        setPred_exists (b1 :: rest) hchain.tail q (by simp) (by simpa using hble)
      refine ⟨i + 1, by simpa using Nat.succ_lt_succ hi, ?_⟩
      rw [setPred_cons_succ b0 (b1 :: rest) i hi]
      exact hpred

unseal Rat.mul Rat.inv Rat.add Rat.sub Rat.ofScientific in
/-- C2, counterexample.  For the boundaries `[0, 10, 25]` and a
support raster with the single pixel value `-5` (finite, different
from the nodata `-32768`), all three class grids are false at that
pixel: the class grids do not cover every finite non-nodata pixel, so
the claimed partition property fails below the first boundary. -/
theorem C2_counterexample :
    create_sets ⟨[some (-5)], -32768⟩ [0, 10, 25] = [[false], [false], [false]] ∧
    (⟨[some (-5)], -32768⟩ : A3DGeoRaster).r[0]? = some (some (-5 : ℚ)) ∧
    ((-5 : ℚ) ≠ (⟨[some (-5)], -32768⟩ : A3DGeoRaster).nodata) :=
  ⟨by decide, by decide, by decide⟩

/-- C2 as amended: `create_sets` returns one boolean grid per
boundary; for strictly increasing boundaries the grids are pairwise
disjoint at every pixel, and every pixel whose support value is
non-NaN, different from the nodata and at or above the first boundary
lies in exactly one class (values below the first boundary lie in no
class, which is what the counterexample exhibits). -/
theorem C2_partition (img : A3DGeoRaster) (bounds : List ℚ)
    (hsorted : List.Chain' (· < ·) bounds) (hne : bounds ≠ []) :
    (create_sets img bounds).length = bounds.length ∧
    (∀ i j p : ℕ, i < j →
      ¬(((create_sets img bounds).getD i [])[p]? = some true ∧
        ((create_sets img bounds).getD j [])[p]? = some true)) ∧
    (∀ (p : ℕ) (q : ℚ), img.r[p]? = some (some q) → q ≠ img.nodata →
      bounds.headD 0 ≤ q →
      ∃ i, i < bounds.length ∧ ((create_sets img bounds).getD i [])[p]? = some true) := by
  refine ⟨by simp [create_sets], ?_, ?_⟩
  · rintro i j p hij ⟨h1, h2⟩
    rw [create_sets_mem_iff] at h1 h2
    obtain ⟨_, q1, hq1, _, hp1⟩ := h1
    obtain ⟨hj, q2, hq2, _, hp2⟩ := h2
    rw [hq1] at hq2
    have hqq : q1 = q2 := by
      have := Option.some.inj hq2
      injection this
    rw [hqq] at hp1
    exact setPred_disjoint bounds hsorted i j hij hj q2 hp1 hp2
  · intro p q hq hnd hle
    obtain ⟨i, hi, hpred⟩ := setPred_exists bounds hsorted q hne hle
    refine ⟨i, hi, ?_⟩
    rw [create_sets_mem_iff]
    exact ⟨hi, q, hq, hnd, hpred⟩

unseal Rat.mul Rat.inv Rat.add Rat.sub Rat.ofScientific in
/-- Witness for C2 on the boundaries `[0, 10, 25]` and a two-pixel
support raster. -/
theorem C2_partition_witness :
    (List.Chain' (· < ·) ([0, 10, 25] : List ℚ) ∧ ([0, 10, 25] : List ℚ) ≠ []) ∧
    ((create_sets ⟨[some 7, some 30], -32768⟩ [0, 10, 25]).length =
        ([0, 10, 25] : List ℚ).length ∧
      (∀ i j p : ℕ, i < j →
        ¬(((create_sets ⟨[some 7, some 30], -32768⟩ [0, 10, 25]).getD i [])[p]? =
            some true ∧
          ((create_sets ⟨[some 7, some 30], -32768⟩ [0, 10, 25]).getD j [])[p]? =
            some true)) ∧
      (∀ (p : ℕ) (q : ℚ),
        (⟨[some 7, some 30], -32768⟩ : A3DGeoRaster).r[p]? = some (some q) →
        q ≠ (⟨[some 7, some 30], -32768⟩ : A3DGeoRaster).nodata →
        ([0, 10, 25] : List ℚ).headD 0 ≤ q →
        ∃ i, i < ([0, 10, 25] : List ℚ).length ∧
          ((create_sets ⟨[some 7, some 30], -32768⟩ [0, 10, 25]).getD i [])[p]? =
            some true)) :=
  ⟨⟨by norm_num [List.chain'_cons, List.chain'_singleton], by decide⟩,
    C2_partition ⟨[some 7, some 30], -32768⟩ [0, 10, 25]
      (by norm_num [List.chain'_cons, List.chain'_singleton]) (by decide)⟩

end DemCompare
